import Mathlib

/-!
Verification of the `JavaRead` primitive decoder (`nbt_reader/src/java_read.rs`).

The byte source is modelled as the list of bytes still to be read (each a
`Nat` below 256).  Every decode operation takes the source and returns,
on success, the decoded value together with the remaining source; the
number of bytes consumed is the difference of the two lists.  Fallible
reads return `Except ErrorKind`.

Floating-point reads (`read_float`, `read_double`) only reinterpret the
big-endian bit pattern (`f32::from_be_bytes` / `f64::from_be_bytes`), so
they are modelled by the assembled 32/64-bit pattern itself; no
floating-point arithmetic occurs anywhere in the code.
-/

namespace JavaRead

/-- The two `std::io::ErrorKind` values produced by `java_read.rs`:
`UnexpectedEof` (the spec's end-of-input) and `InvalidData`. -/
inductive ErrorKind where
  | unexpectedEof
  | invalidData
deriving DecidableEq, Repr

/-- Model of `Read::read_exact` into an `n`-byte buffer: yields the first
`n` bytes of the source and the remaining source, or fails with
`UnexpectedEof` when fewer than `n` bytes remain. -/
def read_exact : Nat → List Nat → Except ErrorKind (List Nat × List Nat)
  | 0, src => .ok ([], src)
  | _ + 1, [] => .error .unexpectedEof
  | n + 1, b :: src =>
    match read_exact n src with
    | .error e => .error e
    | .ok (buf, rest) => .ok (b :: buf, rest)

/-- Big-endian reassembly of a byte buffer into its unsigned value, as in
`<type>::from_be_bytes` (most-significant byte first). -/
def from_be_bytes (buf : List Nat) : Nat :=
  buf.foldl (fun acc b => acc * 256 + b) 0

/-- Two's-complement reinterpretation of the `w`-bit unsigned value `v` as
a signed integer, as the signed `from_be_bytes` instances perform. -/
def toSigned (w v : Nat) : Int :=
  if v < 2 ^ (w - 1) then (v : Int) else (v : Int) - 2 ^ w

/-- `read_byte`: one byte, two's-complement `i8`. -/
def read_byte (src : List Nat) : Except ErrorKind (Int × List Nat) :=
  match read_exact 1 src with
  | .error e => .error e
  | .ok (buf, rest) => .ok (toSigned 8 (from_be_bytes buf), rest)

/-- `read_short`: two bytes, big-endian two's-complement `i16`. -/
def read_short (src : List Nat) : Except ErrorKind (Int × List Nat) :=
  match read_exact 2 src with
  | .error e => .error e
  | .ok (buf, rest) => .ok (toSigned 16 (from_be_bytes buf), rest)

/-- `read_unsigned_short`: two bytes, big-endian `u16`. -/
def read_unsigned_short (src : List Nat) : Except ErrorKind (Nat × List Nat) :=
  match read_exact 2 src with
  | .error e => .error e
  | .ok (buf, rest) => .ok (from_be_bytes buf, rest)

/-- `read_int`: four bytes, big-endian two's-complement `i32`. -/
def read_int (src : List Nat) : Except ErrorKind (Int × List Nat) :=
  match read_exact 4 src with
  | .error e => .error e
  | .ok (buf, rest) => .ok (toSigned 32 (from_be_bytes buf), rest)

/-- `read_long`: eight bytes, big-endian two's-complement `i64`. -/
def read_long (src : List Nat) : Except ErrorKind (Int × List Nat) :=
  match read_exact 8 src with
  | .error e => .error e
  | .ok (buf, rest) => .ok (toSigned 64 (from_be_bytes buf), rest)

/-- `read_float`: four bytes reinterpreted as IEEE-754 binary32, modelled
by the 32-bit pattern the bytes assemble to. -/
def read_float (src : List Nat) : Except ErrorKind (Nat × List Nat) :=
  match read_exact 4 src with
  | .error e => .error e
  | .ok (buf, rest) => .ok (from_be_bytes buf, rest)

/-- `read_double`: eight bytes reinterpreted as IEEE-754 binary64,
modelled by the 64-bit pattern the bytes assemble to. -/
def read_double (src : List Nat) : Except ErrorKind (Nat × List Nat) :=
  match read_exact 8 src with
  | .error e => .error e
  | .ok (buf, rest) => .ok (from_be_bytes buf, rest)

/-- `next_cont_byte` from `read_utf`: reads the next continuation byte,
checks the `10xxxxxx` pattern (`b >> 6 == 0b10`, i.e. `b / 64 = 2`) and
strips the two-bit marker (`b & 0b0011_1111`, i.e. `b % 64`). -/
def next_cont_byte : List Nat → Except ErrorKind (Nat × List Nat)
  | [] => .error .unexpectedEof
  | b :: rest =>
    if b / 64 = 2 then .ok (b % 64, rest) else .error .invalidData

/-- The payload-scanning `while let` loop of `read_utf`: classifies each
lead byte by its high bits (`b0 >> 7 = 0`, `b0 >> 5 = 0b110`,
`b0 >> 4 = 0b1110`, written as division) and assembles one 16-bit code
unit per sequence (the shifts `<< 6`, `<< 12` and the disjoint bit-ORs
written as `* 64`, `* 4096` and `+`). Any other lead byte is invalid.
The read-check-strip step that the source factors into `next_cont_byte`
is inlined at its call sites so the recursion is structural; the lemmas
`decode_code_units_two_byte` and `decode_code_units_three_byte` below
recover the source's factoring through `next_cont_byte` exactly. -/
def decode_code_units : List Nat → Except ErrorKind (List Nat)
  | [] => .ok []
  | b0 :: rest =>
    if b0 / 128 = 0 then
      match decode_code_units rest with
      | .error e => .error e
      | .ok cus => .ok ((b0 % 128) :: cus)
    else if b0 / 32 = 6 then
      match rest with
      | [] => .error .unexpectedEof
      | b1 :: rest1 =>
        if b1 / 64 = 2 then
          match decode_code_units rest1 with
          | .error e => .error e
          | .ok cus => .ok (((b0 % 32) * 64 + b1 % 64) :: cus)
        else .error .invalidData
    else if b0 / 16 = 14 then
      match rest with
      | [] => .error .unexpectedEof
      | b1 :: rest1 =>
        if b1 / 64 = 2 then
          match rest1 with
          | [] => .error .unexpectedEof
          | b2 :: rest2 =>
            if b2 / 64 = 2 then
              match decode_code_units rest2 with
              | .error e => .error e
              | .ok cus => .ok (((b0 % 16) * 4096 + (b1 % 64) * 64 + b2 % 64) :: cus)
            else .error .invalidData
        else .error .invalidData
    else .error .invalidData

/-- One-step unfolding of the scan loop on a non-empty byte list. -/
theorem decode_code_units_cons (b0 : Nat) (rest : List Nat) :
    decode_code_units (b0 :: rest) =
      if b0 / 128 = 0 then
        match decode_code_units rest with
        | .error e => .error e
        | .ok cus => .ok ((b0 % 128) :: cus)
      else if b0 / 32 = 6 then
        match rest with
        | [] => .error .unexpectedEof
        | b1 :: rest1 =>
          if b1 / 64 = 2 then
            match decode_code_units rest1 with
            | .error e => .error e
            | .ok cus => .ok (((b0 % 32) * 64 + b1 % 64) :: cus)
          else .error .invalidData
      else if b0 / 16 = 14 then
        match rest with
        | [] => .error .unexpectedEof
        | b1 :: rest1 =>
          if b1 / 64 = 2 then
            match rest1 with
            | [] => .error .unexpectedEof
            | b2 :: rest2 =>
              if b2 / 64 = 2 then
                match decode_code_units rest2 with
                | .error e => .error e
                | .ok cus => .ok (((b0 % 16) * 4096 + (b1 % 64) * 64 + b2 % 64) :: cus)
              else .error .invalidData
          else .error .invalidData
      else .error .invalidData := by
  cases rest with
  | nil => rfl
  | cons b1 rest1 => cases rest1 <;> rfl

/-- The two-byte branch of `decode_code_units` is exactly the source's
composition: read one continuation byte with `next_cont_byte`, then
`code_units.push(b0 << 6 | b1)` and continue the scan. -/
theorem decode_code_units_two_byte (b0 : Nat) (rest : List Nat)
    (hlead : ¬ b0 / 128 = 0) (h2 : b0 / 32 = 6) :
    decode_code_units (b0 :: rest) =
      match next_cont_byte rest with
      | .error e => .error e
      | .ok (b1, rest1) =>
        match decode_code_units rest1 with
        | .error e => .error e
        | .ok cus => .ok (((b0 % 32) * 64 + b1) :: cus) := by
  rw [decode_code_units_cons]
  cases rest with
  | nil => simp [next_cont_byte, hlead, h2]
  | cons b1 rest1 =>
    simp only [next_cont_byte, hlead, h2, reduceIte]
    by_cases hb1 : b1 / 64 = 2
    · simp [hb1]
    · simp [hb1]

/-- The three-byte branch of `decode_code_units` is exactly the source's
composition: read two continuation bytes with `next_cont_byte`, then
`code_units.push(b0 << 12 | b1 << 6 | b2)` and continue the scan. -/
theorem decode_code_units_three_byte (b0 : Nat) (rest : List Nat)
    (hlead : ¬ b0 / 128 = 0) (h2 : ¬ b0 / 32 = 6) (h3 : b0 / 16 = 14) :
    decode_code_units (b0 :: rest) =
      match next_cont_byte rest with
      | .error e => .error e
      | .ok (b1, rest1) =>
        match next_cont_byte rest1 with
        | .error e => .error e
        | .ok (b2, rest2) =>
          match decode_code_units rest2 with
          | .error e => .error e
          | .ok cus => .ok (((b0 % 16) * 4096 + b1 * 64 + b2) :: cus) := by
  rw [decode_code_units_cons]
  cases rest with
  | nil => simp [next_cont_byte, hlead, h2, h3]
  | cons b1 rest1 =>
    simp only [next_cont_byte, hlead, h2, h3, reduceIte]
    by_cases hb1 : b1 / 64 = 2
    · simp only [hb1, reduceIte]
      cases rest1 with
      | nil => simp [next_cont_byte]
      | cons b2 rest2 =>
        simp only [next_cont_byte]
        by_cases hb2 : b2 / 64 = 2
        · simp [hb2]
        · simp [hb2]
    · simp [hb1]

/-- Model of Rust `String::from_utf16`: interprets a sequence of 16-bit
code units as UTF-16, pairing a high surrogate (`0xD800..0xDBFF`) with a
following low surrogate (`0xDC00..0xDFFF`) into a supplementary code
point, and failing on any unpaired or inverted surrogate.  The resulting
string is modelled as its list of code points. -/
def from_utf16 : List Nat → Except ErrorKind (List Nat)
  | [] => .ok []
  | cu :: rest =>
    if cu < 0xD800 ∨ 0xE000 ≤ cu then
      match from_utf16 rest with
      | .error e => .error e
      | .ok cps => .ok (cu :: cps)
    else if cu < 0xDC00 then
      match rest with
      | [] => .error .invalidData
      | lo :: rest2 =>
        if 0xDC00 ≤ lo ∧ lo < 0xE000 then
          match from_utf16 rest2 with
          | .error e => .error e
          | .ok cps =>
            .ok ((0x10000 + (cu - 0xD800) * 1024 + (lo - 0xDC00)) :: cps)
        else .error .invalidData
    else .error .invalidData

/-- `read_utf`: reads a `u16` length prefix, then exactly that many
payload bytes, scans them into UTF-16 code units and converts the result
to text (here: the list of code points), mapping a UTF-16 conversion
failure to `InvalidData`. -/
def read_utf (src : List Nat) : Except ErrorKind (List Nat × List Nat) :=
  match read_unsigned_short src with
  | .error e => .error e
  | .ok (utf_length, src1) =>
    match read_exact utf_length src1 with
    | .error e => .error e
    | .ok (bytes, src2) =>
      match decode_code_units bytes with
      | .error e => .error e
      | .ok code_units =>
        match from_utf16 code_units with
        | .error _ => .error .invalidData
        | .ok s => .ok (s, src2)


/-! ## Supporting lemmas -/

/-- `read_exact` fails with `UnexpectedEof` when the source holds fewer
than the requested number of bytes. -/
theorem read_exact_eof {n : Nat} {src : List Nat} (h : src.length < n) :
    read_exact n src = .error .unexpectedEof := by
  induction n generalizing src with
  | zero => omega
  | succ n ih =>
    cases src with
    | nil => rfl
    | cons b s =>
      simp only [read_exact]
      rw [ih (by simpa using h)]

/-- A successful `read_exact n` returns the first `n` bytes and drops
exactly `n` bytes from the source. -/
theorem read_exact_ok {n : Nat} {src buf rest : List Nat}
    (h : read_exact n src = .ok (buf, rest)) :
    buf = src.take n ∧ rest = src.drop n ∧ src.length = n + rest.length := by
  induction n generalizing src buf rest with
  | zero =>
    simp only [read_exact, Except.ok.injEq, Prod.mk.injEq] at h
    simp [← h.1, ← h.2]
  | succ n ih =>
    cases src with
    | nil => simp [read_exact] at h
    | cons b s =>
      simp only [read_exact] at h
      cases hre : read_exact n s with
      | error e => rw [hre] at h; cases h
      | ok pr =>
        obtain ⟨buf1, rest1⟩ := pr
        rw [hre] at h
        simp only [Except.ok.injEq, Prod.mk.injEq] at h
        obtain ⟨hb, hr⟩ := h
        obtain ⟨ht, hd, hl⟩ := ih hre
        subst hb hr
        simp [List.take, List.drop, ht, hd]
        omega

/-! ## Claims -/

/-- C1: on a source whose next bytes are the length prefix `0x00 0x08`
followed by the payload `[0x41, 0xCE, 0xBC, 0xC0, 0x80, 0xE1, 0x88, 0x9F]`,
`read_utf` succeeds with exactly the four code points U+0041, U+03BC,
U+0000, U+121F in that order, and consumes exactly those 10 bytes (any
further bytes `extra` are left untouched in the source). -/
theorem claim_c1 (extra : List Nat) :
    read_utf ([0x00, 0x08, 0x41, 0xCE, 0xBC, 0xC0, 0x80, 0xE1, 0x88, 0x9F] ++ extra)
      = .ok ([0x41, 0x3BC, 0x0, 0x121F], extra) := rfl

/-- C1 witness: the statement at `extra = [0x7A]`. -/
theorem claim_c1_witness :
    read_utf ([0x00, 0x08, 0x41, 0xCE, 0xBC, 0xC0, 0x80, 0xE1, 0x88, 0x9F] ++ [0x7A])
      = .ok ([0x41, 0x3BC, 0x0, 0x121F], [0x7A]) := claim_c1 [0x7A]

/-- C4: when the length prefix promises `hi * 256 + lo` payload bytes but
fewer remain in the source, `read_utf` fails with `UnexpectedEof` (the
end-of-input error) and produces no value. -/
theorem claim_c4 (hi lo : Nat) (rest : List Nat)
    (hshort : rest.length < hi * 256 + lo) :
    read_utf (hi :: lo :: rest) = .error .unexpectedEof := by
  simp only [read_utf, read_unsigned_short, read_exact, from_be_bytes, List.foldl]
  rw [read_exact_eof (by omega)]

/-- C4 witness: length prefix 8 with only 7 payload bytes. -/
theorem claim_c4_witness :
    read_utf [0, 8, 1, 2, 3, 4, 5, 6, 7] = .error .unexpectedEof :=
  claim_c4 0 8 [1, 2, 3, 4, 5, 6, 7] (by decide)

/-- C5: the payload scan performs no surrogate-pair validation (the lone
high surrogate `0xED 0xA0 0x81` scans to the single code unit `0xD801`);
a high surrogate followed by a low surrogate, each a 3-byte sequence,
decodes to the supplementary code point U+10437; a payload whose
code-unit sequence is a lone unpaired surrogate makes `read_utf` fail
with `InvalidData` at the final UTF-16 conversion. -/
theorem claim_c5 :
    decode_code_units [0xED, 0xA0, 0x81] = .ok [0xD801] ∧
    read_utf [0x00, 0x06, 0xED, 0xA0, 0x81, 0xED, 0xB0, 0xB7] = .ok ([0x10437], []) ∧
    read_utf [0x00, 0x03, 0xED, 0xA0, 0x81] = .error .invalidData :=
  ⟨rfl, rfl, rfl⟩

/-- C6: the fixed-width decoders produce exactly the documented values on
the documented inputs. -/
theorem claim_c6 :
    read_byte [0xC0] = .ok (-64, []) ∧
    read_short [0xC0, 0x00] = .ok (-16384, []) ∧
    read_unsigned_short [0x7F, 0xFF] = .ok (32767, []) ∧
    read_int [0xC0, 0x00, 0x00, 0x00] = .ok (-1073741824, []) ∧
    read_long [0xC0, 0x00, 0x00, 0x00, 0x00, 0x00, 0x00, 0x00]
      = .ok (-4611686018427387904, []) :=
  ⟨rfl, rfl, rfl, rfl, rfl⟩

/-- C8: both encodings of U+0000 are accepted and decode to the same code
point: the two-byte overlong form `0xC0 0x80` (two-byte branch, code unit
0) and the literal byte `0x00` (generic single-byte branch, code unit 0). -/
theorem claim_c8 :
    read_utf [0x00, 0x02, 0xC0, 0x80] = .ok ([0], []) ∧
    read_utf [0x00, 0x01, 0x00] = .ok ([0], []) :=
  ⟨rfl, rfl⟩

/-- C2: at any lead-byte position of the payload scan, a byte with top
bits `10xxxxxx` (a bare continuation byte, `b0 / 64 = 2`) or with top
bits `1111xxxx` (a 4+-byte lead pattern, `b0 / 16 = 15`) makes the scan
fail immediately with `InvalidData`; lifted to `read_utf`, a source whose
payload starts with such a byte yields `InvalidData` and no string. -/
theorem claim_c2 (b0 : Nat) (rest : List Nat) (hb : b0 < 256)
    (hbad : b0 / 64 = 2 ∨ b0 / 16 = 15) :
    decode_code_units (b0 :: rest) = .error .invalidData ∧
    read_utf [0x00, 0x01, b0] = .error .invalidData := by
  have key : ∀ r : List Nat, decode_code_units (b0 :: r) = .error .invalidData := by
    intro r
    rw [decode_code_units_cons]
    have h1 : ¬ b0 / 128 = 0 := by omega
    have h2 : ¬ b0 / 32 = 6 := by omega
    have h3 : ¬ b0 / 16 = 14 := by omega
    simp [h1, h2, h3]
  refine ⟨key rest, ?_⟩
  simp only [read_utf, read_unsigned_short, read_exact, from_be_bytes, List.foldl]
  rw [key []]

/-- C2 witness: the statement at the bare continuation byte `0x80`. -/
theorem claim_c2_witness :
    decode_code_units [0x80, 0x41] = .error .invalidData ∧
    read_utf [0x00, 0x01, 0x80] = .error .invalidData :=
  claim_c2 0x80 [0x41] (by decide) (by decide)

/-- C3: for every continuation byte required by a two- or three-byte
sequence, `next_cont_byte` fails with `UnexpectedEof` (end of input) when
the payload is exhausted and with `InvalidData` when the byte present
does not have top bits `10` (`b / 64 ≠ 2`); and the scan loop of
`read_utf` propagates exactly these errors (so no string is returned),
for the single continuation byte of a two-byte lead and for both
continuation bytes of a three-byte lead. -/
theorem claim_c3 :
    (next_cont_byte [] = .error .unexpectedEof) ∧
    (∀ (b : Nat) (r : List Nat), ¬ b / 64 = 2 →
       next_cont_byte (b :: r) = .error .invalidData) ∧
    (∀ (b0 : Nat) (rest : List Nat) (e : ErrorKind),
       ¬ b0 / 128 = 0 → b0 / 32 = 6 → next_cont_byte rest = .error e →
       decode_code_units (b0 :: rest) = .error e) ∧
    (∀ (b0 : Nat) (rest : List Nat) (e : ErrorKind),
       ¬ b0 / 128 = 0 → ¬ b0 / 32 = 6 → b0 / 16 = 14 →
       next_cont_byte rest = .error e →
       decode_code_units (b0 :: rest) = .error e) ∧
    (∀ (b0 : Nat) (rest : List Nat) (b1 : Nat) (rest1 : List Nat) (e : ErrorKind),
       ¬ b0 / 128 = 0 → ¬ b0 / 32 = 6 → b0 / 16 = 14 →
       next_cont_byte rest = .ok (b1, rest1) → next_cont_byte rest1 = .error e →
       decode_code_units (b0 :: rest) = .error e) := by
  refine ⟨rfl, ?_, ?_, ?_, ?_⟩
  · intro b r hb
    simp [next_cont_byte, hb]
  · intro b0 rest e hlead h2 hnext
    rw [decode_code_units_two_byte b0 rest hlead h2, hnext]
  · intro b0 rest e hlead h2 h3 hnext
    rw [decode_code_units_three_byte b0 rest hlead h2 h3, hnext]
  · intro b0 rest b1 rest1 e hlead h2 h3 hnext1 hnext2
    rw [decode_code_units_three_byte b0 rest hlead h2 h3, hnext1]
    simp [hnext2]

/-- C3 witness: exhausted payload after the two-byte lead `0xC3` gives
`UnexpectedEof`; the non-continuation byte `0x41` after `0xC3` gives
`InvalidData`. -/
theorem claim_c3_witness :
    decode_code_units [0xC3] = .error .unexpectedEof ∧
    decode_code_units [0xC3, 0x41] = .error .invalidData :=
  ⟨claim_c3.2.2.1 0xC3 [] .unexpectedEof (by decide) (by decide) rfl,
   claim_c3.2.2.1 0xC3 [0x41] .invalidData (by decide) (by decide)
     (claim_c3.2.1 0x41 [] (by decide))⟩

/-- C10: no shortest-form (overlong) validation is performed: any
two-byte sequence `110xxxxx 10xxxxxx` and any three-byte sequence
`1110xxxx 10xxxxxx 10xxxxxx` with well-formed continuation bytes is
accepted and contributes exactly the code unit its bits reassemble to;
in particular `0xC1 0x81` decodes to U+0041 and `0xE0 0x80 0x80` decodes
to U+0000. -/
theorem claim_c10 (b0 b1 b2 : Nat) (rest : List Nat) :
    (b0 / 32 = 6 → b1 / 64 = 2 →
      decode_code_units (b0 :: b1 :: rest) =
        match decode_code_units rest with
        | .error e => .error e
        | .ok cus => .ok (((b0 % 32) * 64 + b1 % 64) :: cus)) ∧
    (b0 / 16 = 14 → b1 / 64 = 2 → b2 / 64 = 2 →
      decode_code_units (b0 :: b1 :: b2 :: rest) =
        match decode_code_units rest with
        | .error e => .error e
        | .ok cus => .ok (((b0 % 16) * 4096 + (b1 % 64) * 64 + b2 % 64) :: cus)) ∧
    read_utf [0x00, 0x02, 0xC1, 0x81] = .ok ([0x41], []) ∧
    read_utf [0x00, 0x03, 0xE0, 0x80, 0x80] = .ok ([0], []) := by
  refine ⟨?_, ?_, rfl, rfl⟩
  · intro ha hb
    rw [decode_code_units_cons]
    have h1 : ¬ b0 / 128 = 0 := by omega
    simp [h1, ha, hb]
  · intro ha hb hc
    rw [decode_code_units_cons]
    have h1 : ¬ b0 / 128 = 0 := by omega
    have h2 : ¬ b0 / 32 = 6 := by omega
    simp [h1, h2, ha, hb, hc]

/-- C10 witness: the overlong two-byte sequence `0xC1 0x81` scans to the
code unit U+0041. -/
theorem claim_c10_witness :
    decode_code_units [0xC1, 0x81] =
      match decode_code_units ([] : List Nat) with
      | .error e => .error e
      | .ok cus => .ok (((0xC1 % 32) * 64 + 0x81 % 64) :: cus) :=
  (claim_c10 0xC1 0x81 0 []).1 (by decide) (by decide)

/-! ## Big-endian encoders (`to_be_bytes`), for the round-trip property -/

/-- `u16::to_be_bytes`: the two big-endian bytes of a 16-bit value. -/
def u16_to_be_bytes (v : Nat) : List Nat :=
  [v / 256 % 256, v % 256]

/-- `u32::to_be_bytes`: the four big-endian bytes of a 32-bit value. -/
def u32_to_be_bytes (v : Nat) : List Nat :=
  [v / 16777216 % 256, v / 65536 % 256, v / 256 % 256, v % 256]

/-- `u64::to_be_bytes`: the eight big-endian bytes of a 64-bit value. -/
def u64_to_be_bytes (v : Nat) : List Nat :=
  [v / 72057594037927936 % 256, v / 281474976710656 % 256,
   v / 1099511627776 % 256, v / 4294967296 % 256,
   v / 16777216 % 256, v / 65536 % 256, v / 256 % 256, v % 256]

/-- `i8::to_be_bytes`: the single two's-complement byte of an `i8`. -/
def i8_to_be_bytes (v : Int) : List Nat :=
  [(v % 256).toNat]

/-- `i16::to_be_bytes`: two's-complement bits, then big-endian bytes. -/
def i16_to_be_bytes (v : Int) : List Nat :=
  u16_to_be_bytes (v % 65536).toNat

/-- `i32::to_be_bytes`: two's-complement bits, then big-endian bytes. -/
def i32_to_be_bytes (v : Int) : List Nat :=
  u32_to_be_bytes (v % 4294967296).toNat

/-- `i64::to_be_bytes`: two's-complement bits, then big-endian bytes. -/
def i64_to_be_bytes (v : Int) : List Nat :=
  u64_to_be_bytes (v % 18446744073709551616).toNat

/-- Evaluation of `read_byte` on a source with at least one byte. -/
theorem read_byte_eq (b : Nat) (r : List Nat) :
    read_byte (b :: r) = .ok (toSigned 8 (0 * 256 + b), r) := rfl

/-- Evaluation of `read_short` on a source with at least two bytes. -/
theorem read_short_eq (b0 b1 : Nat) (r : List Nat) :
    read_short (b0 :: b1 :: r) = .ok (toSigned 16 ((0 * 256 + b0) * 256 + b1), r) := rfl

/-- Evaluation of `read_unsigned_short` on a source with at least two
bytes. -/
theorem read_unsigned_short_eq (b0 b1 : Nat) (r : List Nat) :
    read_unsigned_short (b0 :: b1 :: r) = .ok ((0 * 256 + b0) * 256 + b1, r) := rfl

/-- Evaluation of `read_int` on a source with at least four bytes. -/
theorem read_int_eq (b0 b1 b2 b3 : Nat) (r : List Nat) :
    read_int (b0 :: b1 :: b2 :: b3 :: r) =
      .ok (toSigned 32 ((((0 * 256 + b0) * 256 + b1) * 256 + b2) * 256 + b3), r) := rfl

/-- Evaluation of `read_long` on a source with at least eight bytes. -/
theorem read_long_eq (b0 b1 b2 b3 b4 b5 b6 b7 : Nat) (r : List Nat) :
    read_long (b0 :: b1 :: b2 :: b3 :: b4 :: b5 :: b6 :: b7 :: r) =
      .ok (toSigned 64 ((((((((0 * 256 + b0) * 256 + b1) * 256 + b2) * 256 + b3)
        * 256 + b4) * 256 + b5) * 256 + b6) * 256 + b7), r) := rfl

/-- Evaluation of `read_float` on a source with at least four bytes. -/
theorem read_float_eq (b0 b1 b2 b3 : Nat) (r : List Nat) :
    read_float (b0 :: b1 :: b2 :: b3 :: r) =
      .ok ((((0 * 256 + b0) * 256 + b1) * 256 + b2) * 256 + b3, r) := rfl

/-- Evaluation of `read_double` on a source with at least eight bytes. -/
theorem read_double_eq (b0 b1 b2 b3 b4 b5 b6 b7 : Nat) (r : List Nat) :
    read_double (b0 :: b1 :: b2 :: b3 :: b4 :: b5 :: b6 :: b7 :: r) =
      .ok ((((((((0 * 256 + b0) * 256 + b1) * 256 + b2) * 256 + b3)
        * 256 + b4) * 256 + b5) * 256 + b6) * 256 + b7, r) := rfl

/-- C7: round-trip — for every fixed-width type, decoding the big-endian
byte representation of a value yields exactly that value (hence
re-encoding the decoded value reproduces the original bytes), over the
whole range of each type and so in particular at the type minimum,
maximum, zero and −1.  `f32` and `f64` are modelled by their 32- and
64-bit patterns, which is exact because `from_be_bytes` for floats only
reinterprets bits. -/
theorem claim_c7 (v8 v16 v32 v64 : Int) (vu vf vd : Nat)
    (h8l : -128 <= v8) (h8u : v8 < 128)
    (h16l : -32768 <= v16) (h16u : v16 < 32768)
    (h32l : -2147483648 <= v32) (h32u : v32 < 2147483648)
    (h64l : -9223372036854775808 <= v64) (h64u : v64 < 9223372036854775808)
    (hu : vu < 65536) (hf : vf < 4294967296) (hd : vd < 18446744073709551616) :
    read_byte (i8_to_be_bytes v8) = .ok (v8, []) ∧
    read_short (i16_to_be_bytes v16) = .ok (v16, []) ∧
    read_unsigned_short (u16_to_be_bytes vu) = .ok (vu, []) ∧
    read_int (i32_to_be_bytes v32) = .ok (v32, []) ∧
    read_long (i64_to_be_bytes v64) = .ok (v64, []) ∧
    read_float (u32_to_be_bytes vf) = .ok (vf, []) ∧
    read_double (u64_to_be_bytes vd) = .ok (vd, []) := by
  refine ⟨?_, ?_, ?_, ?_, ?_, ?_, ?_⟩
  · simp only [i8_to_be_bytes, read_byte_eq, toSigned, Except.ok.injEq,
      Prod.mk.injEq, and_true]
    have hc : (2 : Nat) ^ (8 - 1) = 128 := by norm_num
    have hp : (2 : Int) ^ 8 = 256 := by norm_num
    rw [hc, hp]
    split <;> omega
  · simp only [i16_to_be_bytes, u16_to_be_bytes, read_short_eq, toSigned,
      Except.ok.injEq, Prod.mk.injEq, and_true]
    have hc : (2 : Nat) ^ (16 - 1) = 32768 := by norm_num
    have hp : (2 : Int) ^ 16 = 65536 := by norm_num
    rw [hc, hp]
    split <;> omega
  · simp only [u16_to_be_bytes, read_unsigned_short_eq, Except.ok.injEq,
      Prod.mk.injEq, and_true]
    omega
  · simp only [i32_to_be_bytes, u32_to_be_bytes, read_int_eq, toSigned,
      Except.ok.injEq, Prod.mk.injEq, and_true]
    have hc : (2 : Nat) ^ (32 - 1) = 2147483648 := by norm_num
    have hp : (2 : Int) ^ 32 = 4294967296 := by norm_num
    rw [hc, hp]
    split <;> omega
  · simp only [i64_to_be_bytes, u64_to_be_bytes, read_long_eq, toSigned,
      Except.ok.injEq, Prod.mk.injEq, and_true]
    have hc : (2 : Nat) ^ (64 - 1) = 9223372036854775808 := by norm_num
    have hp : (2 : Int) ^ 64 = 18446744073709551616 := by norm_num
    rw [hc, hp]
    split <;> omega
  · simp only [u32_to_be_bytes, read_float_eq, Except.ok.injEq,
      Prod.mk.injEq, and_true]
    omega
  · simp only [u64_to_be_bytes, read_double_eq, Except.ok.injEq,
      Prod.mk.injEq, and_true]
    omega

/-- C7 witness: the round trips at −1, the minima/maxima and zero. -/
theorem claim_c7_witness :
    read_byte (i8_to_be_bytes (-1)) = .ok (-1, []) ∧
    read_short (i16_to_be_bytes (-32768)) = .ok (-32768, []) ∧
    read_unsigned_short (u16_to_be_bytes 65535) = .ok (65535, []) ∧
    read_int (i32_to_be_bytes 2147483647) = .ok (2147483647, []) ∧
    read_long (i64_to_be_bytes (-9223372036854775808)) = .ok (-9223372036854775808, []) ∧
    read_float (u32_to_be_bytes 0) = .ok (0, []) ∧
    read_double (u64_to_be_bytes 18446744073709551615) = .ok (18446744073709551615, []) :=
  claim_c7 (-1) (-32768) 2147483647 (-9223372036854775808) 65535 0 18446744073709551615
    (by decide) (by decide) (by decide) (by decide) (by decide) (by decide)
    (by decide) (by decide) (by decide) (by decide) (by decide)

/-- A successful `read_unsigned_short` returns the big-endian value of
the first two bytes and drops exactly those two bytes. -/
theorem read_unsigned_short_ok {src : List Nat} {L : Nat} {rest : List Nat}
    (h : read_unsigned_short src = .ok (L, rest)) :
    L = from_be_bytes (src.take 2) ∧ rest = src.drop 2 ∧
      src.length = 2 + rest.length := by
  simp only [read_unsigned_short] at h
  cases hre : read_exact 2 src with
  | error e => rw [hre] at h; cases h
  | ok pr =>
    obtain ⟨buf, r⟩ := pr
    rw [hre] at h
    simp only [Except.ok.injEq, Prod.mk.injEq] at h
    obtain ⟨hv, hr⟩ := h
    obtain ⟨ht, hd, hl⟩ := read_exact_ok hre
    subst hr
    exact ⟨by rw [← hv, ht], hd, hl⟩

/-- C9: every successful decode consumes exactly its format-mandated byte
count: the remaining source is `src.drop n` for the fixed widths
`n = 1, 2, 2, 4, 8, 4, 8`, and for `read_utf` it is
`src.drop (2 + L)` where `L` is the big-endian value of the two
length-prefix bytes — 2 prefix bytes plus exactly `L` payload bytes,
regardless of how many code units the payload decodes to. -/
theorem claim_c9 (src : List Nat) :
    (∀ v rest, read_byte src = .ok (v, rest) →
       rest = src.drop 1 ∧ src.length = 1 + rest.length) ∧
    (∀ v rest, read_short src = .ok (v, rest) →
       rest = src.drop 2 ∧ src.length = 2 + rest.length) ∧
    (∀ v rest, read_unsigned_short src = .ok (v, rest) →
       rest = src.drop 2 ∧ src.length = 2 + rest.length) ∧
    (∀ v rest, read_int src = .ok (v, rest) →
       rest = src.drop 4 ∧ src.length = 4 + rest.length) ∧
    (∀ v rest, read_long src = .ok (v, rest) →
       rest = src.drop 8 ∧ src.length = 8 + rest.length) ∧
    (∀ v rest, read_float src = .ok (v, rest) →
       rest = src.drop 4 ∧ src.length = 4 + rest.length) ∧
    (∀ v rest, read_double src = .ok (v, rest) →
       rest = src.drop 8 ∧ src.length = 8 + rest.length) ∧
    (∀ s rest, read_utf src = .ok (s, rest) →
       rest = src.drop (2 + from_be_bytes (src.take 2)) ∧
       src.length = (2 + from_be_bytes (src.take 2)) + rest.length) := by
  refine ⟨?_, ?_, ?_, ?_, ?_, ?_, ?_, ?_⟩
  · intro v rest h
    simp only [read_byte] at h
    cases hre : read_exact 1 src with
    | error e => rw [hre] at h; cases h
    | ok pr =>
      obtain ⟨buf, r⟩ := pr
      rw [hre] at h
      simp only [Except.ok.injEq, Prod.mk.injEq] at h
      obtain ⟨_, hr⟩ := h
      subst hr
      exact ⟨(read_exact_ok hre).2.1, (read_exact_ok hre).2.2⟩
  · intro v rest h
    simp only [read_short] at h
    cases hre : read_exact 2 src with
    | error e => rw [hre] at h; cases h
    | ok pr =>
      obtain ⟨buf, r⟩ := pr
      rw [hre] at h
      simp only [Except.ok.injEq, Prod.mk.injEq] at h
      obtain ⟨_, hr⟩ := h
      subst hr
      exact ⟨(read_exact_ok hre).2.1, (read_exact_ok hre).2.2⟩
  · intro v rest h
    exact ⟨(read_unsigned_short_ok h).2.1, (read_unsigned_short_ok h).2.2⟩
  · intro v rest h
    simp only [read_int] at h
    cases hre : read_exact 4 src with
    | error e => rw [hre] at h; cases h
    | ok pr =>
      obtain ⟨buf, r⟩ := pr
      rw [hre] at h
      simp only [Except.ok.injEq, Prod.mk.injEq] at h
      obtain ⟨_, hr⟩ := h
      subst hr
      exact ⟨(read_exact_ok hre).2.1, (read_exact_ok hre).2.2⟩
  · intro v rest h
    simp only [read_long] at h
    cases hre : read_exact 8 src with
    | error e => rw [hre] at h; cases h
    | ok pr =>
      obtain ⟨buf, r⟩ := pr
      rw [hre] at h
      simp only [Except.ok.injEq, Prod.mk.injEq] at h
      obtain ⟨_, hr⟩ := h
      subst hr
      exact ⟨(read_exact_ok hre).2.1, (read_exact_ok hre).2.2⟩
  · intro v rest h
    simp only [read_float] at h
    cases hre : read_exact 4 src with
    | error e => rw [hre] at h; cases h
    | ok pr =>
      obtain ⟨buf, r⟩ := pr
      rw [hre] at h
      simp only [Except.ok.injEq, Prod.mk.injEq] at h
      obtain ⟨_, hr⟩ := h
      subst hr
      exact ⟨(read_exact_ok hre).2.1, (read_exact_ok hre).2.2⟩
  · intro v rest h
    simp only [read_double] at h
    cases hre : read_exact 8 src with
    | error e => rw [hre] at h; cases h
    | ok pr =>
      obtain ⟨buf, r⟩ := pr
      rw [hre] at h
      simp only [Except.ok.injEq, Prod.mk.injEq] at h
      obtain ⟨_, hr⟩ := h
      subst hr
      exact ⟨(read_exact_ok hre).2.1, (read_exact_ok hre).2.2⟩
  · intro s rest h
    simp only [read_utf] at h
    cases hus : read_unsigned_short src with
    | error e => rw [hus] at h; cases h
    | ok pr =>
      obtain ⟨L, src1⟩ := pr
      rw [hus] at h
      dsimp only at h
      obtain ⟨hL, hs1, hl1⟩ := read_unsigned_short_ok hus
      cases hpe : read_exact L src1 with
      | error e => rw [hpe] at h; cases h
      | ok pr2 =>
        obtain ⟨bytes, src2⟩ := pr2
        rw [hpe] at h
        dsimp only at h
        obtain ⟨_, hs2, hl2⟩ := read_exact_ok hpe
        cases hdc : decode_code_units bytes with
        | error e => rw [hdc] at h; cases h
        | ok cus =>
          rw [hdc] at h
          dsimp only at h
          cases hfu : from_utf16 cus with
          | error e => rw [hfu] at h; cases h
          | ok cps =>
            rw [hfu] at h
            simp only [Except.ok.injEq, Prod.mk.injEq] at h
            obtain ⟨_, hr⟩ := h
            subst hr
            constructor
            · rw [hs2, hs1, List.drop_drop, ← hL, Nat.add_comm]
            · rw [← hL]; omega

/-- C9 witness: `read_utf` on the source `[0, 1, 0x41]` (length prefix 1,
payload `"A"`) leaves exactly the empty source, having consumed
`2 + 1` bytes. -/
theorem claim_c9_witness :
    ([] : List Nat) = List.drop (2 + from_be_bytes (List.take 2 [0, 1, 0x41])) [0, 1, 0x41] ∧
    ([0, 1, 0x41] : List Nat).length =
      (2 + from_be_bytes (List.take 2 [0, 1, 0x41])) + ([] : List Nat).length :=
  (claim_c9 [0, 1, 0x41]).2.2.2.2.2.2.2 [0x41] [] rfl

end JavaRead
